import Mathlib

/-!
Verification of the cosmosclient transaction provisioning-and-broadcast
pipeline (package cosmosclient, file cosmosclient.go).

The Go code is shallowly embedded: every external collaborator (Tendermint
RPC, account retriever, bank query client, faucet HTTP service, protobuf
codec) is modelled as a record of deterministic answers supplied to the
function under scrutiny, and the side effects the pipeline performs
(taking the process-wide config mutex, installing the bech32 account
config, issuing queries, building, signing and broadcasting) are
reified as an explicit event trace so that ordering and counting facts
become statements about lists.
-/

namespace Cosmosclient

/-- A coin as used by the bank query: denomination and (non-negative) amount.
The Go code compares `coin.Amount.Uint64()`, modelled as `Nat`. -/
structure Coin where
  denom : String
  amount : Nat
deriving Repr, DecidableEq

/-- The fields of `tx.Factory` the pipeline reads or writes:
chain id, account number, sequence and the gas limit. -/
structure Factory where
  chainID : String
  accountNumber : Nat
  sequence : Nat
  gas : Nat
deriving Repr, DecidableEq

def Factory.withAccountNumber (f : Factory) (n : Nat) : Factory :=
  { f with accountNumber := n }

def Factory.withSequence (f : Factory) (s : Nat) : Factory :=
  { f with sequence := s }

def Factory.withGas (f : Factory) (g : Nat) : Factory :=
  { f with gas := g }

/-- The fields of the Go `Client` struct that the broadcast pipeline and the
faucet funding routine read. `factory` is the base `c.Factory` built once by
`New`. -/
structure Client where
  addressPrefix : String
  useFaucet : Bool
  faucetAddress : String
  faucetDenom : String
  faucetMinAmount : Nat
  factory : Factory
deriving Repr

/-- Observable side effects of one pipeline run, in program order:
taking and releasing the `mconf` mutex, installing the bech32 account
config, the account-existence query, the account number/sequence query,
the gas simulation RPC, and the provision closure steps
(build unsigned tx, sign, encode, send). -/
inductive Event where
  | lock
  | setBech32Config (pfx : String)
  | ensureExistsQuery
  | numSeqQuery
  | simulateQuery
  | unlock
  | buildUnsigned
  | sign
  | encodeTx
  | broadcastSend
deriving Repr, DecidableEq, BEq

/-- Deterministic answers of `txf.AccountRetriever()` for the one address the
run asks about: the result of `EnsureExists` and of
`GetAccountNumberSequence`. -/
structure AccountRetriever where
  ensureExists : Except String Unit
  getAccountNumberSequence : Except String (Nat × Nat)

/-- Go `prepareFactory`: confirms the signer exists, then, when the account
number or the sequence is the zero sentinel, queries the node once and fills
in only the unset field or fields. Returns the resulting factory together
with the trace of queries issued. -/
def prepareFactory (ar : AccountRetriever) (txf : Factory) :
    Except String Factory × List Event :=
  match ar.ensureExists with
  | .error e => (.error e, [Event.ensureExistsQuery])
  | .ok _ =>
    let initNum := txf.accountNumber
    let initSeq := txf.sequence
    if initNum = 0 ∨ initSeq = 0 then
      match ar.getAccountNumberSequence with
      | .error e => (.error e, [Event.ensureExistsQuery, Event.numSeqQuery])
      | .ok (num, seq) =>
        let txf1 := if initNum = 0 then txf.withAccountNumber num else txf
        let txf2 := if initSeq = 0 then txf1.withSequence seq else txf1
        (.ok txf2, [Event.ensureExistsQuery, Event.numSeqQuery])
    else
      (.ok txf, [Event.ensureExistsQuery])

/-- The fields of `sdktypes.TxResponse` that `handleBroadcastResult` reads,
plus the hex-encoded `Data` field that `Response.Decode` reads. -/
structure TxResponse where
  code : Nat
  rawLog : String
  dataHex : String
deriving Repr, DecidableEq

/-- Go `strings.Contains s pat`: `pat` occurs as a contiguous substring
of `s`. -/
def strContains (s pat : String) : Prop :=
  List.IsInfix pat.toList s.toList

instance instDecStrContains (s pat : String) : Decidable (strContains s pat) :=
  List.decidableInfix pat.toList s.toList

/-- A single quotation mark character, kept out of string literals. -/
def squote : String := String.singleton (Char.ofNat 39)

/-- The message built by `fmt.Errorf("SPN error with ..." , resp.Code,
resp.RawLog)`. -/
def spnErrorMessage (code : Nat) (rawLog : String) : String :=
  "SPN error with " ++ squote ++ toString code ++ squote ++ " code: " ++ rawLog

/-- Go `handleBroadcastResult`: a transport error mentioning "not found" is
replaced by the balance hint, any other transport error is propagated;
with no transport error a non-zero response code becomes an SPN error
carrying the code and the raw log, and code zero is success. -/
def handleBroadcastResult (resp : TxResponse) (err : Option String) :
    Except String Unit :=
  match err with
  | some e =>
    if strContains e "not found" then
      .error "make sure that your SPN account has enough balance"
    else
      .error e
  | none =>
    if resp.code > 0 then
      .error (spnErrorMessage resp.code resp.rawLog)
    else
      .ok ()

/-- Go `checkAccountBalance`: propagates a query error; otherwise succeeds
exactly when some returned coin has the configured faucet denom and at least
the configured minimum amount, and returns the fixed insufficient-balance
error otherwise. The Go guard `len(balances) > 0` is subsumed by the loop
over the (possibly empty) list. -/
def checkAccountBalance (c : Client) (resp : Except String (List Coin)) :
    Except String Unit :=
  match resp with
  | .error e => .error e
  | .ok balances =>
    if balances.any
        (fun coin => coin.denom == c.faucetDenom &&
          decide (c.faucetMinAmount ≤ coin.amount)) then
      .ok ()
    else
      .error "account has not enough balance"

/-- C2: a factory with both account number and sequence non-zero passes
through `prepareFactory` unchanged with zero number/sequence queries; a
factory with either field at the zero sentinel triggers exactly one
number/sequence query, and a successful query overwrites only the zero
field or fields. -/
theorem prepareFactory_sentinel (ar : AccountRetriever) (txf : Factory)
    (h : ar.ensureExists = .ok ()) :
    (txf.accountNumber ≠ 0 ∧ txf.sequence ≠ 0 →
      prepareFactory ar txf = (.ok txf, [Event.ensureExistsQuery])) ∧
    ((txf.accountNumber = 0 ∨ txf.sequence = 0) →
      (prepareFactory ar txf).2.count Event.numSeqQuery = 1 ∧
      ∀ num seq, ar.getAccountNumberSequence = .ok (num, seq) →
        (prepareFactory ar txf).1 = .ok
          { txf with
            accountNumber :=
              if txf.accountNumber = 0 then num else txf.accountNumber,
            sequence := if txf.sequence = 0 then seq else txf.sequence }) := by
  constructor
  · rintro ⟨hn, hs⟩
    simp [prepareFactory, h, hn, hs]
  · intro hzero
    constructor
    · rcases hq : ar.getAccountNumberSequence with e | ⟨num, seq⟩ <;>
        simp [prepareFactory, h, hzero, hq, List.count_cons] <;> decide
    · intro num seq hq
      rcases txf with ⟨cid, n, s, g⟩
      rcases hzero with hn | hs
      · subst hn
        by_cases hs : s = 0 <;>
          simp [prepareFactory, hq, h, hs, Factory.withAccountNumber,
            Factory.withSequence]
      · subst hs
        by_cases hn : n = 0 <;>
          simp [prepareFactory, hq, h, hn, Factory.withAccountNumber,
            Factory.withSequence]

/-- Witness for `prepareFactory_sentinel` at a concrete retriever and
factory with a zero sequence. -/
theorem prepareFactory_sentinel_witness :
    (prepareFactory ⟨.ok (), .ok (7, 4)⟩ ⟨"spn", 3, 0, 200⟩).2.count
        Event.numSeqQuery = 1 ∧
    (prepareFactory ⟨.ok (), .ok (7, 4)⟩ ⟨"spn", 3, 0, 200⟩).1 =
      .ok ⟨"spn", 3, 4, 200⟩ := by
  have h := (prepareFactory_sentinel ⟨.ok (), .ok (7, 4)⟩ ⟨"spn", 3, 0, 200⟩
    rfl).2 (Or.inr rfl)
  exact ⟨h.1, by simpa using h.2 7 4 rfl⟩

/-- C3: classification of broadcast outcomes. With no transport error, code
zero is success, and a non-zero code yields an error message containing the
decimal code and the raw log verbatim; a transport error containing
"not found" is replaced by the balance hint, and any other transport error
is propagated unchanged. -/
theorem handleBroadcastResult_classification (resp : TxResponse)
    (err : Option String) :
    (err = none → resp.code = 0 → handleBroadcastResult resp err = .ok ()) ∧
    (err = none → resp.code ≠ 0 →
      ∃ msg, handleBroadcastResult resp err = .error msg ∧
        strContains msg (toString resp.code) ∧ strContains msg resp.rawLog) ∧
    (∀ e, err = some e → strContains e "not found" →
      handleBroadcastResult resp err =
        .error "make sure that your SPN account has enough balance") ∧
    (∀ e, err = some e → ¬ strContains e "not found" →
      handleBroadcastResult resp err = .error e) := by
  refine ⟨?_, ?_, ?_, ?_⟩
  · rintro rfl h0
    simp [handleBroadcastResult, h0]
  · rintro rfl hne
    refine ⟨spnErrorMessage resp.code resp.rawLog, ?_, ?_, ?_⟩
    · simp [handleBroadcastResult, Nat.pos_of_ne_zero hne]
    · refine ⟨("SPN error with " ++ squote).toList,
        (squote ++ " code: " ++ resp.rawLog).toList, ?_⟩
      simp only [spnErrorMessage, String.toList, String.data_append]
      simp [List.append_assoc]
    · refine ⟨("SPN error with " ++ squote ++ toString resp.code ++ squote ++
        " code: ").toList, [], ?_⟩
      simp only [spnErrorMessage, String.toList, String.data_append]
      simp [List.append_assoc]
  · rintro e rfl hc
    simp [handleBroadcastResult, hc]
  · rintro e rfl hc
    simp [handleBroadcastResult, hc]

/-- Witness for `handleBroadcastResult_classification`: code 5 with raw log
"insufficient funds" yields a message containing both. -/
theorem handleBroadcastResult_witness :
    ∃ msg, handleBroadcastResult ⟨5, "insufficient funds", ""⟩ none =
        .error msg ∧
      strContains msg (toString (5 : Nat)) ∧
      strContains msg "insufficient funds" := by
  exact (handleBroadcastResult_classification ⟨5, "insufficient funds", ""⟩
    none).2.1 rfl (by decide)

/-- C5: on a successful balance query, `checkAccountBalance` succeeds exactly
when some returned coin has the configured faucet denom with at least the
configured minimum amount, and returns the fixed insufficient-balance error
otherwise. -/
theorem checkAccountBalance_iff (c : Client) (balances : List Coin) :
    (checkAccountBalance c (.ok balances) = .ok () ↔
      ∃ coin ∈ balances,
        coin.denom = c.faucetDenom ∧ c.faucetMinAmount ≤ coin.amount) ∧
    ((¬ ∃ coin ∈ balances,
        coin.denom = c.faucetDenom ∧ c.faucetMinAmount ≤ coin.amount) →
      checkAccountBalance c (.ok balances) =
        .error "account has not enough balance") := by
  have hiff : balances.any
      (fun coin => coin.denom == c.faucetDenom &&
        decide (c.faucetMinAmount ≤ coin.amount)) = true ↔
      ∃ coin ∈ balances,
        coin.denom = c.faucetDenom ∧ c.faucetMinAmount ≤ coin.amount := by
    simp
  constructor
  · constructor
    · intro h
      cases hb : balances.any
          (fun coin => coin.denom == c.faucetDenom &&
            decide (c.faucetMinAmount ≤ coin.amount)) with
      | true => exact hiff.mp hb
      | false => simp [checkAccountBalance, hb] at h
    · intro hex
      simp [checkAccountBalance, hiff.mpr hex]
  · intro hno
    have hb : balances.any
        (fun coin => coin.denom == c.faucetDenom &&
          decide (c.faucetMinAmount ≤ coin.amount)) = false := by
      cases hb : balances.any
          (fun coin => coin.denom == c.faucetDenom &&
            decide (c.faucetMinAmount ≤ coin.amount)) with
      | true => exact absurd (hiff.mp hb) hno
      | false => rfl
    simp [checkAccountBalance, hb]

/-- Witness for `checkAccountBalance_iff` at a concrete client and balance
list. -/
theorem checkAccountBalance_witness :
    checkAccountBalance
      ⟨"cosmos", false, "http://localhost:4500", "token", 100,
        ⟨"spn", 1, 1, 300000⟩⟩
      (.ok [⟨"stake", 3⟩, ⟨"token", 150⟩]) = .ok () := by
  exact (checkAccountBalance_iff _ _).1.mpr
    ⟨⟨"token", 150⟩, by simp, rfl, by decide⟩

/-- One transfer inside a faucet response; only its error string is read. -/
structure Transfer where
  error : String
deriving Repr, DecidableEq

/-- The faucet response: a top-level error string and the per-transfer
results. -/
structure TransferResponse where
  error : String
  transfers : List Transfer
deriving Repr, DecidableEq

/-- Deterministic answers of the external collaborators that
`makeSureAccountHasTokens` talks to: the balance query result before
funding, the faucet transfer outcome (transport error or response), and
the balance query result at each whole second after funding. -/
structure TokenEnv where
  initialBalances : Except String (List Coin)
  faucetTransfer : Except String TransferResponse
  pollBalances : Nat → Except String (List Coin)

/-- Go `FaucetTransferEnsureDuration = time.Minute * 2`, in seconds. -/
def FaucetTransferEnsureDuration : Nat := 120

/-- The `backoff.Retry` loop with a constant one-second interval under a
context deadline: check the balance at second `t`; on failure wait one
second and retry while fuel remains, and report the context deadline error
once the deadline elapses. Returns the result together with the number of
balance checks performed. -/
def pollBalance (c : Client) (poll : Nat → Except String (List Coin)) :
    Nat → Nat → Except String Unit × Nat
  | t, 0 =>
    match checkAccountBalance c (poll t) with
    | .ok _ => (.ok (), 1)
    | .error _ => (.error "context deadline exceeded", 1)
  | t, fuel + 1 =>
    match checkAccountBalance c (poll t) with
    | .ok _ => (.ok (), 1)
    | .error _ =>
      let r := pollBalance c poll (t + 1) fuel
      (r.1, r.2 + 1)

/-- Counts of the external requests one `makeSureAccountHasTokens` run
issued: faucet transfer requests and post-funding balance checks. -/
structure FundTrace where
  faucetCalls : Nat
  pollAttempts : Nat
deriving Repr, DecidableEq

/-- Go `makeSureAccountHasTokens`: returns at once when the balance is
already sufficient; otherwise requests funds from the faucet exactly once,
fails on a transport error, a non-empty top-level response error or the
first non-empty per-transfer error, and otherwise polls the balance every
second under the two-minute deadline. -/
def makeSureAccountHasTokens (c : Client) (env : TokenEnv) :
    Except String Unit × FundTrace :=
  match checkAccountBalance c env.initialBalances with
  | .ok _ => (.ok (), ⟨0, 0⟩)
  | .error _ =>
    match env.faucetTransfer with
    | .error e => (.error ("faucet server request failed: " ++ e), ⟨1, 0⟩)
    | .ok faucetResp =>
      if faucetResp.error ≠ "" then
        (.error ("cannot retrieve tokens from faucet: " ++ faucetResp.error),
          ⟨1, 0⟩)
      else
        match faucetResp.transfers.find? (fun t => t.error ≠ "") with
        | some t =>
          (.error ("cannot retrieve tokens from faucet: " ++ t.error), ⟨1, 0⟩)
        | none =>
          let r := pollBalance c env.pollBalances 0 FaucetTransferEnsureDuration
          (r.1, ⟨1, r.2⟩)

theorem pollBalance_timeout (c : Client)
    (poll : Nat → Except String (List Coin)) :
    ∀ fuel t, (∀ s, t ≤ s → s ≤ t + fuel →
        checkAccountBalance c (poll s) ≠ .ok ()) →
      pollBalance c poll t fuel = (.error "context deadline exceeded", fuel + 1)
  | 0, t, h => by
    rcases hc : checkAccountBalance c (poll t) with e | u
    · simp [pollBalance, hc]
    · exact absurd (by simpa using hc) (h t le_rfl (by omega))
  | fuel + 1, t, h => by
    rcases hc : checkAccountBalance c (poll t) with e | u
    · have ih := pollBalance_timeout c poll fuel (t + 1)
        (fun s hs1 hs2 => h s (by omega) (by omega))
      simp [pollBalance, hc, ih]
    · exact absurd (by simpa using hc) (h t le_rfl (by omega))

theorem pollBalance_success (c : Client)
    (poll : Nat → Except String (List Coin)) :
    ∀ k fuel t, k ≤ fuel →
      checkAccountBalance c (poll (t + k)) = .ok () →
      (∀ j < k, checkAccountBalance c (poll (t + j)) ≠ .ok ()) →
      pollBalance c poll t fuel = (.ok (), k + 1)
  | 0, fuel, t, hk, hok, hbefore => by
    rcases fuel with _ | fuel <;> simp [pollBalance, show
      checkAccountBalance c (poll t) = .ok () from by simpa using hok]
  | k + 1, fuel, t, hk, hok, hbefore => by
    rcases fuel with _ | fuel
    · omega
    · have hfail : checkAccountBalance c (poll t) ≠ .ok () := by
        simpa using hbefore 0 (by omega)
      rcases hc : checkAccountBalance c (poll t) with e | u
      · have ih := pollBalance_success c poll k fuel (t + 1) (by omega)
          (by simpa [Nat.add_assoc, Nat.add_comm 1 k] using hok)
          (fun j hj => by
            have := hbefore (j + 1) (by omega)
            simpa [Nat.add_assoc, Nat.add_comm 1 j] using this)
        simp [pollBalance, hc, ih]
      · exact absurd (by simpa using hc) hfail

/-- C4: when the pre-funding balance check fails and the faucet responds,
the funding step succeeds only if the top-level error and every
per-transfer error are empty; when any of them is non-empty the routine
returns an error at once, with exactly one faucet request and no balance
polling. -/
theorem makeSureAccountHasTokens_faucet_errors (c : Client) (env : TokenEnv)
    (h0 : ∃ e, checkAccountBalance c env.initialBalances = .error e)
    (resp : TransferResponse) (h1 : env.faucetTransfer = .ok resp)
    (h2 : resp.error ≠ "" ∨ ∃ t ∈ resp.transfers, t.error ≠ "") :
    (∃ msg, (makeSureAccountHasTokens c env).1 = .error msg) ∧
    (makeSureAccountHasTokens c env).2.faucetCalls = 1 ∧
    (makeSureAccountHasTokens c env).2.pollAttempts = 0 := by
  obtain ⟨e0, he0⟩ := h0
  by_cases htop : resp.error = ""
  · have hsome : ∃ t, resp.transfers.find? (fun t => t.error ≠ "") = some t := by
      rcases h2 with h | ⟨t, ht, hte⟩
      · exact absurd htop h
      · rcases hf : resp.transfers.find? (fun t => t.error ≠ "") with _ | t'
        · have := List.find?_eq_none.mp hf t ht
          simp [hte] at this
        · exact ⟨t', hf⟩
    obtain ⟨t, hfind⟩ := hsome
    have hrun : makeSureAccountHasTokens c env =
        (.error ("cannot retrieve tokens from faucet: " ++ t.error), ⟨1, 0⟩) := by
      unfold makeSureAccountHasTokens
      rw [he0, h1]
      dsimp only
      rw [if_neg (by simp [htop]), hfind]
    rw [hrun]
    exact ⟨⟨_, rfl⟩, rfl, rfl⟩
  · have hrun : makeSureAccountHasTokens c env =
        (.error ("cannot retrieve tokens from faucet: " ++ resp.error), ⟨1, 0⟩) := by
      unfold makeSureAccountHasTokens
      rw [he0, h1]
      dsimp only
      rw [if_pos htop]
    rw [hrun]
    exact ⟨⟨_, rfl⟩, rfl, rfl⟩

/-- The faucet-enabled client used by the funding witnesses. -/
def clientF : Client :=
  ⟨"cosmos", true, "http://localhost:4500", "token", 100, ⟨"spn", 1, 1, 300000⟩⟩

/-- A funding environment whose faucet response carries a transfer error. -/
def tokenEnvErr : TokenEnv := ⟨.ok [], .ok ⟨"", [⟨"dried up"⟩]⟩, fun _ => .ok []⟩

/-- A funding environment whose balance first suffices at the third second
after funding. -/
def tokenEnvPoll : TokenEnv :=
  ⟨.ok [], .ok ⟨"", [⟨""⟩]⟩,
    fun t => if t < 3 then .ok [] else .ok [⟨"token", 150⟩]⟩

/-- Witness for `makeSureAccountHasTokens_faucet_errors` at a concrete
client, environment and faucet response carrying a transfer error. -/
theorem makeSureAccountHasTokens_faucet_errors_witness :
    (∃ msg, (makeSureAccountHasTokens clientF tokenEnvErr).1 = .error msg) ∧
    (makeSureAccountHasTokens clientF tokenEnvErr).2.faucetCalls = 1 ∧
    (makeSureAccountHasTokens clientF tokenEnvErr).2.pollAttempts = 0 := by
  exact makeSureAccountHasTokens_faucet_errors clientF tokenEnvErr
    ⟨"account has not enough balance", rfl⟩ ⟨"", [⟨"dried up"⟩]⟩ rfl
    (Or.inr ⟨⟨"dried up"⟩, by decide, by decide⟩)

/-- C6: after a funding request that reported no errors, the routine issues
no further faucet request and re-runs only the balance check once per
second; if the check first succeeds at second `t0` within the two-minute
deadline the routine succeeds after `t0 + 1` checks, and if it never
succeeds within the deadline the routine returns the terminal context
deadline error. -/
theorem makeSureAccountHasTokens_polls (c : Client) (env : TokenEnv)
    (h0 : ∃ e, checkAccountBalance c env.initialBalances = .error e)
    (resp : TransferResponse) (h1 : env.faucetTransfer = .ok resp)
    (h2 : resp.error = "")
    (h3 : ∀ t ∈ resp.transfers, t.error = "") :
    (makeSureAccountHasTokens c env).2.faucetCalls = 1 ∧
    ((∀ t, t ≤ FaucetTransferEnsureDuration →
        checkAccountBalance c (env.pollBalances t) ≠ .ok ()) →
      (makeSureAccountHasTokens c env).1 =
          .error "context deadline exceeded" ∧
      (makeSureAccountHasTokens c env).2.pollAttempts =
          FaucetTransferEnsureDuration + 1) ∧
    (∀ t0, t0 ≤ FaucetTransferEnsureDuration →
      checkAccountBalance c (env.pollBalances t0) = .ok () →
      (∀ s < t0, checkAccountBalance c (env.pollBalances s) ≠ .ok ()) →
      (makeSureAccountHasTokens c env).1 = .ok () ∧
      (makeSureAccountHasTokens c env).2.pollAttempts = t0 + 1) := by
  obtain ⟨e0, he0⟩ := h0
  have hfind : resp.transfers.find? (fun t => t.error ≠ "") = none :=
    List.find?_eq_none.mpr (fun t ht => by simp [h3 t ht])
  have hrun : makeSureAccountHasTokens c env =
      ((pollBalance c env.pollBalances 0 FaucetTransferEnsureDuration).1,
        ⟨1, (pollBalance c env.pollBalances 0 FaucetTransferEnsureDuration).2⟩) := by
    unfold makeSureAccountHasTokens
    rw [he0, h1]
    dsimp only
    rw [if_neg (by simp [h2]), hfind]
  refine ⟨?_, ?_, ?_⟩
  · rw [hrun]
  · intro hnever
    have hp := pollBalance_timeout c env.pollBalances
      FaucetTransferEnsureDuration 0
      (fun s hs1 hs2 => hnever s (by omega))
    rw [hrun, hp]
    exact ⟨rfl, rfl⟩
  · intro t0 ht0 hok hbefore
    have hp := pollBalance_success c env.pollBalances t0
      FaucetTransferEnsureDuration 0 ht0 (by simpa using hok)
      (fun j hj => by simpa using hbefore j hj)
    rw [hrun, hp]
    exact ⟨rfl, rfl⟩

/-- Witness for `makeSureAccountHasTokens_polls`: the balance becomes
sufficient at the third second, so the run succeeds after four checks with
a single faucet call. -/
theorem makeSureAccountHasTokens_polls_witness :
    (makeSureAccountHasTokens clientF tokenEnvPoll).2.faucetCalls = 1 ∧
    (makeSureAccountHasTokens clientF tokenEnvPoll).1 = .ok () ∧
    (makeSureAccountHasTokens clientF tokenEnvPoll).2.pollAttempts = 3 + 1 := by
  have h := makeSureAccountHasTokens_polls clientF tokenEnvPoll
    ⟨"account has not enough balance", rfl⟩ ⟨"", [⟨""⟩]⟩ rfl rfl (by decide)
  have h3 := h.2.2 3 (by decide) rfl
    (by
      intro s hs hbad
      interval_cases s <;>
        simp [checkAccountBalance, clientF, tokenEnvPoll] at hbad)
  exact ⟨h.1, h3.1, h3.2⟩

/-- Lowercase hex digit for a value below 16, as produced by Go
`hex.EncodeToString`. -/
def toHexDigit (n : Nat) : Char :=
  if n < 10 then Char.ofNat (48 + n) else Char.ofNat (87 + n)

/-- Value of one hex digit character, accepting the lowercase and uppercase
ranges that Go `hex.DecodeString` accepts. -/
def fromHexDigit (ch : Char) : Option Nat :=
  let n := ch.toNat
  if 48 ≤ n ∧ n ≤ 57 then some (n - 48)
  else if 97 ≤ n ∧ n ≤ 102 then some (n - 87)
  else if 65 ≤ n ∧ n ≤ 70 then some (n - 55)
  else none

/-- Go `hex.DecodeString` over the character list: fails on odd length or on
a non-hex character, otherwise combines each digit pair into a byte. -/
def hexDecodeList : List Char → Option (List Nat)
  | [] => some []
  | [_] => none
  | c1 :: c2 :: rest =>
    match fromHexDigit c1, fromHexDigit c2, hexDecodeList rest with
    | some h, some l, some bs => some ((16 * h + l) :: bs)
    | _, _, _ => none

def hexDecode (s : String) : Option (List Nat) := hexDecodeList s.toList

def hexEncodeList : List Nat → List Char
  | [] => []
  | b :: bs => toHexDigit (b / 16) :: toHexDigit (b % 16) :: hexEncodeList bs

def hexEncode (bs : List Nat) : String := String.mk (hexEncodeList bs)

theorem fromHexDigit_toHexDigit (d : Nat) (h : d < 16) :
    fromHexDigit (toHexDigit d) = some d := by
  interval_cases d <;> rfl

theorem hexDecodeList_hexEncodeList (bs : List Nat)
    (h : ∀ b ∈ bs, b < 256) :
    hexDecodeList (hexEncodeList bs) = some bs := by
  induction bs with
  | nil => rfl
  | cons b bs ih =>
    have hb : b < 256 := h b (by simp)
    have h1 : b / 16 < 16 := by omega
    have h2 : b % 16 < 16 := by omega
    have ih2 := ih (fun x hx => h x (by simp [hx]))
    simp only [hexEncodeList, hexDecodeList, fromHexDigit_toHexDigit _ h1,
      fromHexDigit_toHexDigit _ h2, ih2]
    rw [show 16 * (b / 16) + b % 16 = b from by omega]

/-- One entry of `sdktypes.TxMsgData`: the message type tag and the
serialized result payload. -/
structure MsgData where
  msgType : String
  serialized : List Nat
deriving Repr, DecidableEq

/-- The envelope `sdktypes.TxMsgData` carried hex-encoded in
`TxResponse.Data`: an ordered list of per-message results. -/
structure TxMsgData where
  results : List MsgData
deriving Repr, DecidableEq

/-- The external protobuf codec used for the envelope (`r.codec.Unmarshal`
and, for round-trip statements, the encoder the ledger applied). -/
structure Codec where
  marshal : TxMsgData → List Nat
  unmarshal : List Nat → Except String TxMsgData

/-- A gogo protobuf `Any`: a type URL and the serialized value. -/
structure ProtoAny where
  typeUrl : String
  value : List Nat
deriving Repr, DecidableEq

/-- gogo `types.AnyMessageName`: the text after the last slash of the type
URL, or the whole URL when it has no slash. -/
def anyMessageName (typeUrl : String) : String :=
  String.mk (typeUrl.toList.foldl
    (fun acc c => if c = '/' then [] else acc ++ [c]) [])

/-- The caller-supplied target message type: its registered proto message
name and its deserializer. -/
structure MessageCodec (α : Type) where
  msgName : String
  unmarshal : List Nat → Except String α

/-- gogo `types.UnmarshalAny`: checks that the name derived from the type
URL matches the target message name, then deserializes the value. -/
def unmarshalAny {α : Type} (tc : MessageCodec α) (a : ProtoAny) :
    Except String α :=
  if anyMessageName a.typeUrl = tc.msgName then tc.unmarshal a.value
  else .error ("mismatched message type: got " ++ anyMessageName a.typeUrl ++
    " want " ++ tc.msgName)

/-- Outcome of a `Response.Decode` call. Go has no checked errors for slice
indexing, so the out-of-range access on an empty result list is modelled as
the distinct abnormal-termination outcome `panicked`. -/
inductive DecodeOutcome (α : Type) where
  | ok (a : α)
  | err (e : String)
  | panicked (e : String)
deriving Repr, DecidableEq

/-- Go `Response.Decode`: hex-decodes `r.Data`, unmarshals the `TxMsgData`
envelope, reads entry zero of the result list without a bounds check, and
deserializes that entry with the type URL obtained by appending the fixed
suffix "Response" to the entry message type tag. -/
def Response.Decode {α : Type} (codec : Codec) (tc : MessageCodec α)
    (dataHex : String) : DecodeOutcome α :=
  match hexDecode dataHex with
  | none => .err "invalid hex in response data"
  | some bytes =>
    match codec.unmarshal bytes with
    | .error e => .err e
    | .ok txMsgData =>
      match txMsgData.results with
      | [] => .panicked "runtime error: index out of range"
      | resData :: _ =>
        match unmarshalAny tc ⟨resData.msgType ++ "Response", resData.serialized⟩ with
        | .error e => .err e
        | .ok a => .ok a

/-- C7: `Response.Decode` deserializes exactly the first envelope entry
under the type URL formed by appending "Response" to that entry message
type tag, so a payload whose first entry encodes `v` decodes back to `v`
whatever the remaining entries are, given that the envelope codec and the
target deserializer invert the encoding. -/
theorem Decode_roundtrip {α : Type} (codec : Codec) (tc : MessageCodec α)
    (msgType : String) (v : α) (serBytes : List Nat) (rest : List MsgData)
    (hbytes : ∀ b ∈ codec.marshal ⟨⟨msgType, serBytes⟩ :: rest⟩, b < 256)
    (hcodec : codec.unmarshal (codec.marshal ⟨⟨msgType, serBytes⟩ :: rest⟩) =
      .ok ⟨⟨msgType, serBytes⟩ :: rest⟩)
    (hname : tc.msgName = anyMessageName (msgType ++ "Response"))
    (hser : tc.unmarshal serBytes = .ok v) :
    Response.Decode codec tc
      (hexEncode (codec.marshal ⟨⟨msgType, serBytes⟩ :: rest⟩)) =
      .ok v := by
  have hhex : hexDecode
      (hexEncode (codec.marshal ⟨⟨msgType, serBytes⟩ :: rest⟩)) =
      some (codec.marshal ⟨⟨msgType, serBytes⟩ :: rest⟩) := by
    unfold hexDecode hexEncode
    simpa using hexDecodeList_hexEncodeList _ hbytes
  unfold Response.Decode
  rw [hhex]
  dsimp only
  rw [hcodec]
  dsimp only
  unfold unmarshalAny
  rw [if_pos hname.symm]
  dsimp only
  rw [hser]

/-- Witness for `Decode_roundtrip` with a concrete one-entry envelope, a
constant envelope codec and a length-valued target deserializer. -/
theorem Decode_roundtrip_witness :
    Response.Decode
      ⟨fun _ => [1], fun _ => .ok ⟨[⟨"abc.MsgFoo", [7, 7]⟩]⟩⟩
      ⟨"abc.MsgFooResponse", fun bs => .ok bs.length⟩
      (hexEncode [1]) = .ok 2 := by
  exact Decode_roundtrip
    ⟨fun _ => [1], fun _ => .ok ⟨[⟨"abc.MsgFoo", [7, 7]⟩]⟩⟩
    ⟨"abc.MsgFooResponse", fun bs => .ok bs.length⟩
    "abc.MsgFoo" 2 [7, 7] [] (by decide) rfl (by decide) rfl

/-- C8: a response whose decoded envelope carries an empty per-message
result list makes `Response.Decode` read index zero of an empty slice, so
the call terminates abnormally instead of returning a decode error. -/
theorem Decode_empty_envelope_panics {α : Type} (codec : Codec)
    (tc : MessageCodec α) (dataHex : String) (bytes : List Nat)
    (h1 : hexDecode dataHex = some bytes)
    (h2 : codec.unmarshal bytes = .ok ⟨[]⟩) :
    Response.Decode codec tc dataHex =
      .panicked "runtime error: index out of range" := by
  unfold Response.Decode
  rw [h1]
  dsimp only
  rw [h2]

/-- Witness for `Decode_empty_envelope_panics`: the empty data string
hex-decodes to the empty byte list, and a codec reading it as the empty
envelope makes `Decode` terminate abnormally. -/
theorem Decode_empty_envelope_panics_witness :
    Response.Decode ⟨fun _ => [], fun _ => .ok ⟨[]⟩⟩
      (⟨"abc.MsgFooResponse", fun bs => .ok bs.length⟩ : MessageCodec Nat)
      "" = .panicked "runtime error: index out of range" := by
  exact Decode_empty_envelope_panics _ _ "" [] rfl rfl

/-- Modulus of Go uint64 arithmetic. -/
def uint64Mod : Nat := 2 ^ 64

/-- Deterministic answers of all external collaborators one
`BroadcastTxWithProvision` run talks to: the keyring account lookup in
`prepareBroadcast`, the funding collaborators, the `c.Address` lookup, the
account retriever, the gas simulation RPC, and the broadcast outcome. -/
structure Env where
  accountLookup : Except String Unit
  tokenEnv : TokenEnv
  address : Except String String
  retriever : AccountRetriever
  simulate : Except String Nat
  broadcastResp : TxResponse
  broadcastErr : Option String

/-- Go `prepareBroadcast`: looks up the account in the registry and, when
the faucet is enabled, runs the funding routine. -/
def prepareBroadcast (c : Client) (env : Env) : Except String Unit :=
  match env.accountLookup with
  | .error e => .error e
  | .ok _ =>
    if c.useFaucet then (makeSureAccountHasTokens c env.tokenEnv).1
    else .ok ()

/-- The signing-relevant content of the transaction the provision closure
signs: the factory parameters it was built from and the signer name. -/
structure SignedTx where
  chainID : String
  accountNumber : Nat
  sequence : Nat
  gas : Nat
  signer : String
deriving Repr, DecidableEq

/-- Result of invoking the provision closure: the signed transaction, the
classified broadcast outcome, and the events the closure performs. -/
structure ProvisionOut where
  signedTx : SignedTx
  result : Except String Unit
  events : List Event
deriving Repr

/-- The deferred closure returned by `BroadcastTxWithProvision`: builds the
unsigned transaction from the captured factory, signs it, encodes it and
broadcasts, classifying the result with `handleBroadcastResult`. -/
def runProvision (txf : Factory) (accountName : String) (env : Env) :
    ProvisionOut :=
  { signedTx := ⟨txf.chainID, txf.accountNumber, txf.sequence, txf.gas,
      accountName⟩
    result := handleBroadcastResult env.broadcastResp env.broadcastErr
    events := [Event.buildUnsigned, Event.sign, Event.encodeTx,
      Event.broadcastSend] }

/-- Go `BroadcastTxWithProvision`: after `prepareBroadcast`, takes the
`mconf` mutex, installs the bech32 account config for the client address
format, resolves the address, prepares the factory, simulates gas, adds
the 10000-unit margin, and returns the gas figure with the deferred
provision closure. The deferred `mconf.Unlock` runs when the function
returns, so the unlock event closes every synchronous trace; the closure
events happen only when the caller later invokes the provision. -/
def BroadcastTxWithProvision (c : Client) (accountName : String) (env : Env) :
    Except String (Nat × ProvisionOut) × List Event :=
  match prepareBroadcast c env with
  | .error e => (.error e, [])
  | .ok _ =>
    match env.address with
    | .error e =>
      (.error e, [Event.lock, Event.setBech32Config c.addressPrefix,
        Event.unlock])
    | .ok _ =>
      match prepareFactory env.retriever c.factory with
      | (.error e, qevs) =>
        (.error e, [Event.lock, Event.setBech32Config c.addressPrefix] ++
          qevs ++ [Event.unlock])
      | (.ok txf, qevs) =>
        match env.simulate with
        | .error e =>
          (.error e, [Event.lock, Event.setBech32Config c.addressPrefix] ++
            qevs ++ [Event.simulateQuery, Event.unlock])
        | .ok rawGas =>
          let gas := (rawGas + 10000) % uint64Mod
          let txf2 := txf.withGas gas
          (.ok (gas, runProvision txf2 accountName env),
            [Event.lock, Event.setBech32Config c.addressPrefix] ++ qevs ++
              [Event.simulateQuery, Event.unlock])

/-- Go `BroadcastTxWithProvisionCreateAccount`: identical to
`BroadcastTxWithProvision` except that it uses `c.Factory` directly,
with no `prepareFactory` call. -/
def BroadcastTxWithProvisionCreateAccount (c : Client) (accountName : String)
    (env : Env) : Except String (Nat × ProvisionOut) × List Event :=
  match prepareBroadcast c env with
  | .error e => (.error e, [])
  | .ok _ =>
    match env.address with
    | .error e =>
      (.error e, [Event.lock, Event.setBech32Config c.addressPrefix,
        Event.unlock])
    | .ok _ =>
      let txf := c.factory
      match env.simulate with
      | .error e =>
        (.error e, [Event.lock, Event.setBech32Config c.addressPrefix,
          Event.simulateQuery, Event.unlock])
      | .ok rawGas =>
        let gas := (rawGas + 10000) % uint64Mod
        let txf2 := txf.withGas gas
        (.ok (gas, runProvision txf2 accountName env),
          [Event.lock, Event.setBech32Config c.addressPrefix,
            Event.simulateQuery, Event.unlock])

/-- The full event trace of `BroadcastTx`: the synchronous part of
`BroadcastTxWithProvision` followed, on success, by the invocation of the
returned provision closure. -/
def broadcastTxEvents (c : Client) (accountName : String) (env : Env) :
    List Event :=
  match BroadcastTxWithProvision c accountName env with
  | (.error _, evs) => evs
  | (.ok (_, prov), evs) => evs ++ prov.events

/-- C1: when preparation, address resolution, factory preparation and the
gas simulation all succeed with raw gas below the uint64 bound,
`BroadcastTxWithProvision` returns exactly the raw simulated gas plus the
10000-unit margin, and the transaction signed by the returned provision
closure declares that same gas figure. -/
theorem BroadcastTxWithProvision_gas (c : Client) (accountName : String)
    (env : Env) (rawGas : Nat)
    (h1 : prepareBroadcast c env = .ok ())
    (h2 : ∃ a, env.address = .ok a)
    (h3 : ∃ f, (prepareFactory env.retriever c.factory).1 = .ok f)
    (h4 : env.simulate = .ok rawGas)
    (h5 : rawGas + 10000 < uint64Mod) :
    ∃ prov evs, BroadcastTxWithProvision c accountName env =
        (.ok (rawGas + 10000, prov), evs) ∧
      prov.signedTx.gas = rawGas + 10000 := by
  obtain ⟨a, ha⟩ := h2
  obtain ⟨f, hf⟩ := h3
  have hmod : (rawGas + 10000) % uint64Mod = rawGas + 10000 :=
    Nat.mod_eq_of_lt h5
  rcases hpf : prepareFactory env.retriever c.factory with ⟨r, qevs⟩
  have hr : r = .ok f := by rw [← hf, hpf]
  subst hr
  refine ⟨runProvision (f.withGas (rawGas + 10000)) accountName env,
    [Event.lock, Event.setBech32Config c.addressPrefix] ++ qevs ++
      [Event.simulateQuery, Event.unlock], ?_, rfl⟩
  unfold BroadcastTxWithProvision
  rw [h1]
  dsimp only
  rw [ha]
  dsimp only
  rw [hpf]
  dsimp only
  rw [h4]
  dsimp only
  rw [hmod]

/-- A factory, client and environment on which the whole pipeline,
including the provision closure, succeeds. -/
def factory0 : Factory := ⟨"spn", 1, 1, 300000⟩

def client0 : Client :=
  ⟨"cosmos", false, "http://localhost:4500", "token", 100, factory0⟩

def env0 : Env :=
  { accountLookup := .ok ()
    tokenEnv := ⟨.ok [], .ok ⟨"", []⟩, fun _ => .ok []⟩
    address := .ok "cosmos1abcdef"
    retriever := ⟨.ok (), .ok (7, 4)⟩
    simulate := .ok 50000
    broadcastResp := ⟨0, "", ""⟩
    broadcastErr := none }

/-- Witness for `BroadcastTxWithProvision_gas` on the concrete environment:
simulated gas 50000 yields 60000, declared by the signed transaction. -/
theorem BroadcastTxWithProvision_gas_witness :
    ∃ prov evs, BroadcastTxWithProvision client0 "alice" env0 =
        (.ok (50000 + 10000, prov), evs) ∧
      prov.signedTx.gas = 50000 + 10000 := by
  exact BroadcastTxWithProvision_gas client0 "alice" env0 50000 rfl
    ⟨"cosmos1abcdef", rfl⟩ ⟨factory0, rfl⟩ rfl (by decide)

/-- C9, counterexample: on a concrete run the full `BroadcastTx` trace
releases the `mconf` mutex before the provision closure signs, so the
signing step is not inside the lock window that installs the bech32
prefix: the sign event sits at index 6 and the unlock event at index 4 of
the nine-event trace, so the index of the sign event is not below the
index of the unlock event. -/
theorem broadcastTxEvents_sign_after_unlock :
    (broadcastTxEvents client0 "alice" env0).indexOf Event.sign = 6 ∧
    (broadcastTxEvents client0 "alice" env0).indexOf Event.unlock = 4 ∧
    (broadcastTxEvents client0 "alice" env0).length = 9 ∧
    ¬ ((broadcastTxEvents client0 "alice" env0).indexOf Event.sign <
        (broadcastTxEvents client0 "alice" env0).indexOf Event.unlock) := by
  refine ⟨by decide, by decide, by decide, by decide⟩

/-- C9, amended: on every successful run the lock is taken first, the
bech32 config installed under it, and every query up to and including the
gas simulation happens before the unlock, but the unlock precedes the
build, sign, encode and broadcast steps of the provision closure: the
deferred unlock runs when `BroadcastTxWithProvision` returns, before the
caller invokes the provision. -/
theorem broadcastTxEvents_lock_window (c : Client) (accountName : String)
    (env : Env) (gas : Nat) (prov : ProvisionOut) (evs : List Event)
    (h : BroadcastTxWithProvision c accountName env = (.ok (gas, prov), evs)) :
    ∃ qevs, (∀ e ∈ qevs, e = Event.ensureExistsQuery ∨ e = Event.numSeqQuery) ∧
      broadcastTxEvents c accountName env =
        [Event.lock, Event.setBech32Config c.addressPrefix] ++ qevs ++
          [Event.simulateQuery, Event.unlock, Event.buildUnsigned, Event.sign,
            Event.encodeTx, Event.broadcastSend] := by
  unfold broadcastTxEvents
  rw [h]
  dsimp only
  unfold BroadcastTxWithProvision at h
  rcases hprep : prepareBroadcast c env with e | u <;> rw [hprep] at h <;>
    dsimp only at h
  · simp at h
  rcases haddr : env.address with e | a <;> rw [haddr] at h <;> dsimp only at h
  · simp at h
  rcases hpf : prepareFactory env.retriever c.factory with ⟨r, qevs0⟩
  rw [hpf] at h
  rcases r with e | f <;> dsimp only at h
  · simp at h
  have hq : ∀ ev ∈ qevs0,
      ev = Event.ensureExistsQuery ∨ ev = Event.numSeqQuery := by
    intro ev hev
    unfold prepareFactory at hpf
    rcases hee : env.retriever.ensureExists with e1 | u1 <;> rw [hee] at hpf <;>
      dsimp only at hpf
    · simp at hpf
    by_cases hz : c.factory.accountNumber = 0 ∨ c.factory.sequence = 0
    · rw [if_pos hz] at hpf
      rcases hns : env.retriever.getAccountNumberSequence with e2 | ⟨n2, s2⟩ <;>
        rw [hns] at hpf <;> dsimp only at hpf
      · simp at hpf
      · injection hpf with hpf1 hpf2
        rw [← hpf2] at hev
        simp at hev
        tauto
    · rw [if_neg hz] at hpf
      injection hpf with hpf1 hpf2
      rw [← hpf2] at hev
      simp at hev
      exact Or.inl hev
  rcases hsim : env.simulate with e | rawGas <;> rw [hsim] at h <;>
    dsimp only at h
  · simp at h
  injection h with h1 h2
  injection h1 with h1
  injection h1 with hg hp
  refine ⟨qevs0, hq, ?_⟩
  rw [← h2, ← hp]
  simp [runProvision, List.append_assoc]

/-- Witness for `broadcastTxEvents_lock_window` on the concrete successful
run. -/
theorem broadcastTxEvents_lock_window_witness :
    ∃ qevs, (∀ e ∈ qevs, e = Event.ensureExistsQuery ∨ e = Event.numSeqQuery) ∧
      broadcastTxEvents client0 "alice" env0 =
        [Event.lock, Event.setBech32Config client0.addressPrefix] ++ qevs ++
          [Event.simulateQuery, Event.unlock, Event.buildUnsigned, Event.sign,
            Event.encodeTx, Event.broadcastSend] := by
  exact broadcastTxEvents_lock_window client0 "alice" env0 60000
    (runProvision (factory0.withGas 60000) "alice" env0)
    [Event.lock, Event.setBech32Config "cosmos", Event.ensureExistsQuery,
      Event.simulateQuery, Event.unlock] rfl

/-- C10: a successful `BroadcastTxWithProvisionCreateAccount` run issues no
account-existence query and no account number/sequence query, and the
transaction its provision closure signs carries the base factory account
number and sequence unchanged, while a successful `BroadcastTxWithProvision`
run on the same client always issues the existence query and, when either
base factory field is at the zero sentinel, also the number/sequence
query. -/
theorem BroadcastTxCreateAccount_base_factory (c : Client)
    (accountName : String) (env : Env) (gas : Nat) (prov : ProvisionOut)
    (evs : List Event)
    (h : BroadcastTxWithProvisionCreateAccount c accountName env =
      (.ok (gas, prov), evs)) :
    Event.ensureExistsQuery ∉ evs ∧ Event.numSeqQuery ∉ evs ∧
    prov.signedTx.accountNumber = c.factory.accountNumber ∧
    prov.signedTx.sequence = c.factory.sequence ∧
    (∀ gas2 prov2 evs2,
      BroadcastTxWithProvision c accountName env = (.ok (gas2, prov2), evs2) →
      Event.ensureExistsQuery ∈ evs2 ∧
      ((c.factory.accountNumber = 0 ∨ c.factory.sequence = 0) →
        Event.numSeqQuery ∈ evs2)) := by
  unfold BroadcastTxWithProvisionCreateAccount at h
  rcases hprep : prepareBroadcast c env with e | u <;> rw [hprep] at h <;>
    dsimp only at h
  · simp at h
  rcases haddr : env.address with e | a <;> rw [haddr] at h <;> dsimp only at h
  · simp at h
  rcases hsim : env.simulate with e | rawGas <;> rw [hsim] at h <;>
    dsimp only at h
  · simp at h
  injection h with h1 h2
  injection h1 with h1
  injection h1 with hg hp
  refine ⟨?_, ?_, ?_, ?_, ?_⟩
  · rw [← h2]; simp
  · rw [← h2]; simp
  · rw [← hp]; simp [runProvision, Factory.withGas]
  · rw [← hp]; simp [runProvision, Factory.withGas]
  · intro gas2 prov2 evs2 h2'
    unfold BroadcastTxWithProvision at h2'
    rw [hprep] at h2'
    dsimp only at h2'
    rw [haddr] at h2'
    dsimp only at h2'
    rcases hpf : prepareFactory env.retriever c.factory with ⟨r, qevs⟩
    rw [hpf] at h2'
    rcases r with e | f <;> dsimp only at h2'
    · simp at h2'
    rw [hsim] at h2'
    dsimp only at h2'
    injection h2' with hx hevs2
    unfold prepareFactory at hpf
    rcases hee : env.retriever.ensureExists with e1 | u1 <;> rw [hee] at hpf <;>
      dsimp only at hpf
    · simp at hpf
    constructor
    · rw [← hevs2]
      by_cases hz : c.factory.accountNumber = 0 ∨ c.factory.sequence = 0
      · rw [if_pos hz] at hpf
        rcases hns : env.retriever.getAccountNumberSequence with e2 | ⟨n2, s2⟩ <;>
          rw [hns] at hpf <;> dsimp only at hpf
        · simp at hpf
        · injection hpf with hpf1 hpf2
          rw [← hpf2]
          simp
      · rw [if_neg hz] at hpf
        injection hpf with hpf1 hpf2
        rw [← hpf2]
        simp
    · intro hz
      rw [if_pos hz] at hpf
      rw [← hevs2]
      rcases hns : env.retriever.getAccountNumberSequence with e2 | ⟨n2, s2⟩ <;>
        rw [hns] at hpf <;> dsimp only at hpf
      · simp at hpf
      · injection hpf with hpf1 hpf2
        rw [← hpf2]
        simp

/-- Witness for `BroadcastTxCreateAccount_base_factory` on the concrete
successful run. -/
theorem BroadcastTxCreateAccount_base_factory_witness :
    Event.ensureExistsQuery ∉
      (BroadcastTxWithProvisionCreateAccount client0 "alice" env0).2 ∧
    Event.numSeqQuery ∉
      (BroadcastTxWithProvisionCreateAccount client0 "alice" env0).2 := by
  have h := BroadcastTxCreateAccount_base_factory client0 "alice" env0 60000
    (runProvision (factory0.withGas 60000) "alice" env0)
    [Event.lock, Event.setBech32Config "cosmos", Event.simulateQuery,
      Event.unlock] rfl
  exact ⟨by rw [show (BroadcastTxWithProvisionCreateAccount client0 "alice"
      env0).2 = [Event.lock, Event.setBech32Config "cosmos",
      Event.simulateQuery, Event.unlock] from rfl]; exact h.1,
    by rw [show (BroadcastTxWithProvisionCreateAccount client0 "alice"
      env0).2 = [Event.lock, Event.setBech32Config "cosmos",
      Event.simulateQuery, Event.unlock] from rfl]; exact h.2.1⟩

end Cosmosclient
